import Mathlib

/-!
Verification development for the Stock-agent frontend core: the markdown
cleaner and report sectioniser (`frontend/src/utils/formatReport.ts`), the
chart Y-axis domain computation (`frontend/src/components/PriceChart.tsx`),
the market-data normaliser (`frontend/src/lib/finnhub.ts`), the submit and
error paths of the API client (`frontend/src/lib/api.ts`), and the status
polling loop of `frontend/src/App.tsx`.

Strings are modelled as `List Char`; each JavaScript regex replacement of
`cleanMarkdown` is translated into an explicit left-to-right scanner with the
same matching discipline (line anchoring, greedy or lazy repetition, no
rescanning of replacement text).  Scanners that consume a variable number of
characters per step take a fuel argument; fuel `length + 1` always suffices
because every step consumes at least one character.
-/

namespace StockAgent

/-- Character class of the JavaScript whitespace escape for the ASCII range
(space, tab, line feed, carriage return, vertical tab, form feed); the inputs
handled by the report cleaner only contain these whitespace characters. -/
def isWsChar (c : Char) : Bool :=
  c == ' ' || c == '\t' || c == '\n' || c == '\r' || c == '\x0b' || c == '\x0c'

/-- Length of the run of consecutive sharp signs at the head of the list. -/
def hashRun : List Char → Nat
  | [] => 0
  | c :: rest => if c = '#' then hashRun rest + 1 else 0

/-- Length of the run of consecutive whitespace characters at the head. -/
def wsRun : List Char → Nat
  | [] => 0
  | c :: rest => if isWsChar c then wsRun rest + 1 else 0

/-- Length of the run of consecutive line feeds at the head. -/
def nlRun : List Char → Nat
  | [] => 0
  | c :: rest => if c = '\n' then nlRun rest + 1 else 0

/-- Match of the heading-marker pattern (one to six sharp signs followed by at
least one whitespace character, both repetitions greedy) at the current
position, returning the matched length.  Seven or more sharp signs never
match, because backtracking the first repetition always leaves a sharp sign
where whitespace is required. -/
def headerMatchLen (l : List Char) : Option Nat :=
  let r := hashRun l
  if 1 ≤ r ∧ r ≤ 6 then
    let w := wsRun (l.drop r)
    if 1 ≤ w then some (r + w) else none
  else none

/-- Scanner for the heading-removal replacement: the pattern is anchored at
line starts (multiline flag), and the whitespace run of a match may itself
end in a line feed, in which case the position after the match is again a
line start. -/
def stripHeaders : Nat → Bool → List Char → List Char
  | 0, _, l => l
  | fuel + 1, atStart, l =>
    match l with
    | [] => []
    | c :: rest =>
      if atStart then
        match headerMatchLen (c :: rest) with
        | some n =>
            stripHeaders fuel ((c :: rest).getD (n - 1) ' ' = '\n') ((c :: rest).drop n)
        | none => c :: stripHeaders fuel (c = '\n') rest
      else c :: stripHeaders fuel (c = '\n') rest

/-- Lazy search for the closing double marker: the shortest split of the list
into a content part containing no line feed (the dot of the lazy group does
not match line feeds) followed by two copies of the marker character. -/
def findPair2 (a : Char) : List Char → Option (List Char × List Char)
  | x :: y :: rest =>
    if x = a ∧ y = a then some ([], rest)
    else if x = '\n' then none
    else
      match findPair2 a (y :: rest) with
      | some (cont, rem) => some (x :: cont, rem)
      | none => none
  | _ => none

/-- Lazy search for a closing single marker: the shortest split into a
content part containing no line feed followed by the marker character. -/
def findPair1 (a : Char) : List Char → Option (List Char × List Char)
  | [] => none
  | x :: rest =>
    if x = a then some ([], rest)
    else if x = '\n' then none
    else
      match findPair1 a rest with
      | some (cont, rem) => some (x :: cont, rem)
      | none => none

/-- Scanner for the double-marker replacement (bold markers): at each
position, if two copies of the marker open a match whose closing pair is
found on the same line, the content replaces the whole match and scanning
resumes after it; otherwise the scanner advances one character. -/
def stripPairs2 : Nat → Char → List Char → List Char
  | 0, _, l => l
  | fuel + 1, a, l =>
    match l with
    | [] => []
    | [x] => [x]
    | x :: y :: rest =>
      if x = a ∧ y = a then
        match findPair2 a rest with
        | some (cont, rem) => cont ++ stripPairs2 fuel a rem
        | none => x :: stripPairs2 fuel a (y :: rest)
      else x :: stripPairs2 fuel a (y :: rest)

/-- Scanner for the single-marker replacement (italic markers). -/
def stripPairs1 : Nat → Char → List Char → List Char
  | 0, _, l => l
  | fuel + 1, a, l =>
    match l with
    | [] => []
    | x :: rest =>
      if x = a then
        match findPair1 a rest with
        | some (cont, rem) => cont ++ stripPairs1 fuel a rem
        | none => x :: stripPairs1 fuel a rest
      else x :: stripPairs1 fuel a rest

/-- Split a character list at line feeds, in the way the JavaScript string
split with a line-feed separator does: the empty text yields one empty line,
and a trailing line feed yields a trailing empty line. -/
def splitLines : List Char → List (List Char)
  | [] => [[]]
  | c :: rest =>
    let r := splitLines rest
    if c = '\n' then [] :: r
    else
      match r with
      | [] => [[c]]
      | l :: ls => (c :: l) :: ls

/-- Join lines back with line feeds; inverse of `splitLines` on its image. -/
def joinLines : List (List Char) → List Char
  | [] => []
  | [l] => l
  | l :: ls => l ++ '\n' :: joinLines ls

/-- Character class of horizontal-rule characters. -/
def isRuleChar (c : Char) : Bool := c == '-' || c == '_' || c == '*'

/-- Whole-line match of the horizontal-rule pattern: at least three
characters, all drawn from the rule class. -/
def isRuleLine (l : List Char) : Bool := decide (3 ≤ l.length) && l.all isRuleChar

/-- Replacement of horizontal-rule lines by the empty line.  Every match of
the anchored rule pattern is a complete line, so the replacement acts
line-by-line. -/
def stripRules (l : List Char) : List Char :=
  joinLines ((splitLines l).map (fun line => if isRuleLine line then [] else line))

/-- Scanner for the blank-line collapse: every run of three or more line
feeds is replaced by exactly two. -/
def collapseNl : Nat → List Char → List Char
  | 0, l => l
  | fuel + 1, l =>
    match l with
    | [] => []
    | c :: rest =>
      if c = '\n' then
        let n := nlRun (c :: rest)
        (if 3 ≤ n then ['\n', '\n'] else List.replicate n '\n') ++
          collapseNl fuel ((c :: rest).drop n)
      else c :: collapseNl fuel rest

/-- Whitespace trim at both ends, as the JavaScript string trim does. -/
def jsTrim (l : List Char) : List Char :=
  ((l.dropWhile isWsChar).reverse.dropWhile isWsChar).reverse

/-- Trim on packed strings. -/
def jsTrimStr (s : String) : String := String.mk (jsTrim s.data)

/-- Composition of the seven replacement stages of `cleanMarkdown`, in source
order: heading markers, double-star bold, double-underscore bold, single-star
italic, single-underscore italic, horizontal rules, blank-line collapse, and
the final trim. -/
def cleanChars (l : List Char) : List Char :=
  let s1 := stripHeaders (l.length + 1) true l
  let s2 := stripPairs2 (s1.length + 1) '*' s1
  let s3 := stripPairs2 (s2.length + 1) '_' s2
  let s4 := stripPairs1 (s3.length + 1) '*' s3
  let s5 := stripPairs1 (s4.length + 1) '_' s4
  let s6 := stripRules s5
  let s7 := collapseNl (s6.length + 1) s6
  jsTrim s7

/-- Embedding of `cleanMarkdown` from `frontend/src/utils/formatReport.ts`:
the falsy guard returns the empty string, otherwise the chain of
replacements runs once. -/
def cleanMarkdown (text : String) : String :=
  if text = "" then "" else String.mk (cleanChars text.data)

/-- Structured section produced by the report sectioniser. -/
structure ReportSection where
  title : String
  content : String
deriving DecidableEq

/-- Per-line match of the heading pattern of `parseReportSections` (one to
six sharp signs, at least one whitespace character, then a non-empty rest of
line captured by a group), returning the trimmed captured group.  When the
rest of the line is whitespace only, the lazy backtracking of the whitespace
repetition leaves the last whitespace character to the group, so the trimmed
title is empty; in every case the trimmed group equals the trim of
everything after the sharp signs. -/
def lineHeaderMatch (line : List Char) : Option (List Char) :=
  let r := hashRun line
  if 1 ≤ r ∧ r ≤ 6 then
    match line.drop r with
    | c :: _ :: _ => if isWsChar c then some (jsTrim (line.drop r)) else none
    | _ => none
  else none

/-- Closing of the section currently being accumulated: the stored content is
the cleaned accumulated text, trimmed once more. -/
def finishSection (t c : List Char) : ReportSection :=
  { title := String.mk t, content := jsTrimStr (cleanMarkdown (String.mk c)) }

/-- Line loop of `parseReportSections`: a heading line closes the current
section (when one is open) and opens a new one; any other line is appended to
the open section's content followed by a line feed, or discarded when no
section is open yet; the last open section is closed at the end. -/
def parseAux : List (List Char) → Option (List Char × List Char) → List ReportSection
  | [], none => []
  | [], some (t, c) => [finishSection t c]
  | line :: rest, cur =>
    match lineHeaderMatch line with
    | some title =>
      match cur with
      | some (t, c) => finishSection t c :: parseAux rest (some (title, []))
      | none => parseAux rest (some (title, []))
    | none =>
      match cur with
      | some (t, c) => parseAux rest (some (t, c ++ line ++ ['\n']))
      | none => parseAux rest none

/-- Embedding of `parseReportSections` from
`frontend/src/utils/formatReport.ts`: falsy guard, split into lines, the line
loop, and the final filter keeping sections with non-empty content. -/
def parseReportSections (text : String) : List ReportSection :=
  if text = "" then []
  else (parseAux (splitLines text.data) none).filter (fun s => 0 < s.content.length)

/-- Titles of the heading lines of a line list, in source order. -/
def headerTitles (lines : List (List Char)) : List String :=
  (lines.filterMap lineHeaderMatch).map String.mk

/-- Chart point shape shared by the market-data normaliser and the price
chart; prices and volumes are modelled as rationals (exact stand-ins for the
JavaScript numbers), and a missing volume is `none`. -/
structure ChartDataPoint where
  date : String
  price : ℚ
  volume : Option ℚ
deriving DecidableEq

/-- Spread minimum of a non-empty list, folded from the head; the component
never evaluates it on an empty list (the empty guard returns early), so the
empty case is an unused default. -/
def listMin : List ℚ → ℚ
  | [] => 0
  | p :: ps => ps.foldl min p

/-- Spread maximum of a non-empty list, folded from the head. -/
def listMax : List ℚ → ℚ
  | [] => 0
  | p :: ps => ps.foldl max p

/-- Embedding of the Y-axis domain computation of `PriceChart`
(`frontend/src/components/PriceChart.tsx`): minimum and maximum price,
padding of a tenth of the range or a twentieth of the minimum, whichever is
larger, a floor of zero on the lower bound. -/
def priceDomain (data : List ChartDataPoint) : ℚ × ℚ :=
  let prices := data.map (fun d => d.price)
  let minPrice := listMin prices
  let maxPrice := listMax prices
  let priceRange := maxPrice - minPrice
  let padding := max (priceRange * (1 / 10)) (minPrice * (1 / 20))
  (max 0 (minPrice - padding), maxPrice + padding)

/-- Civil calendar date (year, month, day) of a count of days since the Unix
epoch, by the standard era decomposition used by ECMAScript dates; valid for
every non-negative day count, hence for every date from 1970 on. -/
def civilFromDays (days : Nat) : Nat × Nat × Nat :=
  let z := days + 719468
  let era := z / 146097
  let doe := z % 146097
  let yoe := (doe - doe / 1460 + doe / 36524 - doe / 146096) / 365
  let y := yoe + era * 400
  let doy := doe - (365 * yoe + yoe / 4 - yoe / 100)
  let mp := (5 * doy + 2) / 153
  let dom := doy - (153 * mp + 2) / 5 + 1
  let m := if mp < 10 then mp + 3 else mp - 9
  (if m ≤ 2 then y + 1 else y, m, dom)

/-- Two-digit zero padding of a month or day number. -/
def pad2 (n : Nat) : String := if n < 10 then "0" ++ toString n else toString n

/-- Four-digit zero padding of a year number. -/
def pad4 (n : Nat) : String :=
  if n < 10 then "000" ++ toString n
  else if n < 100 then "00" ++ toString n
  else if n < 1000 then "0" ++ toString n
  else toString n

/-- Embedding of the date formatting of `fetchStockData`: the provider
timestamp in seconds is scaled to milliseconds, the date object renders as a
UTC ISO string, and splitting at the letter T keeps the calendar-date part.
The calendar date is the civil date of the floored day count of the
timestamp. -/
def toISODate (secs : Nat) : String :=
  let days := secs * 1000 / 86400000
  let ymd := civilFromDays days
  pad4 ymd.1 ++ "-" ++ pad2 ymd.2.1 ++ "-" ++ pad2 ymd.2.2

/-- Provider candle response of the market-data endpoint
(`frontend/src/lib/finnhub.ts`): parallel arrays for close, high, low, open,
timestamps and volume, plus a status flag.  Arrays are optional because the
code defends against their absence in the parsed body. -/
structure FinnhubCandle where
  c : Option (List ℚ)
  h : Option (List ℚ)
  l : Option (List ℚ)
  o : Option (List ℚ)
  t : Option (List Nat)
  v : Option (List ℚ)
  s : String
deriving DecidableEq

/-- Embedding of the conversion loop of `fetchStockData` run on a parsed
candle body: a missing close array, a non-ok status, or an empty close array
yields the empty list; otherwise one point per close entry is built from the
parallel arrays.  The value `none` models an exception escaping the loop:
a missing timestamp array or a timestamp array shorter than the close array
makes the ISO rendering of an invalid date throw, and a missing volume array
makes the element access throw; a volume array that is merely shorter only
yields missing volumes. -/
def convertCandle (d : FinnhubCandle) : Option (List ChartDataPoint) :=
  match d.c with
  | none => some []
  | some cs =>
    if d.s ≠ "ok" then some []
    else if cs = [] then some []
    else
      match d.t, d.v with
      | some ts, some vs =>
        if ts.length < cs.length then none
        else
          some ((List.range cs.length).map (fun i =>
            { date := toISODate (ts.getD i 0)
              price := cs.getD i 0
              volume := if i < vs.length then some (vs.getD i 0) else none }))
      | _, _ => none

/-- Success range of an HTTP status, as the ok flag of a fetch response. -/
def responseOk (status : Nat) : Bool := decide (200 ≤ status) && decide (status ≤ 299)

/-- Outcome of the market-data network call observed by `fetchStockData`:
the fetch itself rejects, or a response arrives whose body parses to a
candle or fails to parse. -/
inductive FetchOutcome where
  | netFailure : FetchOutcome
  | response (status : Nat) (body : Option FinnhubCandle) : FetchOutcome
deriving DecidableEq

/-- Embedding of `fetchStockData` from `frontend/src/lib/finnhub.ts` as a
function of the network outcome: a rejected fetch is caught and yields the
empty list; a non-ok status raises the provider-error exception, which the
same catch turns into the empty list; a body that fails to parse likewise;
and an exception escaping the conversion loop is also caught into the empty
list. -/
def fetchStockData : FetchOutcome → List ChartDataPoint
  | .netFailure => []
  | .response status body =>
    if responseOk status = false then []
    else
      match body with
      | none => []
      | some d => (convertCandle d).getD []

/-- Provider response reporting no data: ok fields absent or empty and a
no-data status flag. -/
def noDataCandle : FinnhubCandle :=
  { c := some [], h := some [], l := some [], o := some [], t := some [],
    v := some [], s := "no_data" }

/-- Body of a rejected backend response as read by `createAnalysis`: the
parse of the error body fails (replaced by an empty object), parses without
a string error field, or carries a string error field. -/
inductive ErrorBody where
  | parseFailure : ErrorBody
  | noErrorField : ErrorBody
  | errorField (msg : String) : ErrorBody
deriving DecidableEq

/-- Successful submission body (`CreateAnalysisResponse` of
`frontend/src/lib/api.ts`). -/
structure CreateAnalysisResponse where
  analysis_id : String
  status : String
  message : String
  symbol : String
  status_url : String
  result_url : String
deriving DecidableEq

/-- Response of the submission endpoint: the HTTP status, what the
error-path body read yields, and what the success-path body parse yields
(`Except.error` being a propagated parse rejection). -/
structure SubmitHttpResponse where
  status : Nat
  errorBody : ErrorBody
  okBody : Except String CreateAnalysisResponse

/-- Outcome of the submission network call: the fetch rejects with an error
message, or a response arrives. -/
inductive SubmitNetOutcome where
  | netFailure (msg : String) : SubmitNetOutcome
  | response (resp : SubmitHttpResponse) : SubmitNetOutcome

/-- Message extracted from a rejected response's body: the error field when
it is a string, the generic fallback otherwise. -/
def extractErrMsg : ErrorBody → String
  | .errorField msg => msg
  | _ => "unknown error"

/-- Embedding of `createAnalysis` from `frontend/src/lib/api.ts` as a
function of the network outcome: a rejected fetch propagates; a non-ok
response throws the submission error built from the body's error field; an
ok response yields its parsed body, a failing parse propagating. -/
def createAnalysis (o : SubmitNetOutcome) : Except String CreateAnalysisResponse :=
  match o with
  | .netFailure msg => .error msg
  | .response resp =>
    if responseOk resp.status = false then
      .error ("Analysis request failed: " ++ extractErrMsg resp.errorBody)
    else resp.okBody

/-- Form state of the submission view of `frontend/src/App.tsx`. -/
structure FormState where
  symbol : String
  market : String
  researchDepth : Nat
  llmProvider : String
  includeRisk : Bool
  includeSentiment : Bool
  includeNews : Bool
  analysisDate : String
deriving DecidableEq

/-- Analyst list built by `handleSubmit`: the two core analysts always, then
news and social depending on the toggles, in push order. -/
def buildAnalysts (f : FormState) : List String :=
  ["market", "fundamentals"] ++ (if f.includeNews then ["news"] else []) ++
    (if f.includeSentiment then ["social"] else [])

/-- Submission payload assembled by `handleSubmit` from the form state. -/
structure CreateAnalysisPayload where
  symbol : String
  market : String
  research_depth : Nat
  llm_provider : String
  analysts : List String
  analysis_date : String
  include_risk_assessment : Bool
deriving DecidableEq

/-- Payload construction of `handleSubmit`, field by field. -/
def payloadOfForm (f : FormState) : CreateAnalysisPayload :=
  { symbol := f.symbol
    market := f.market
    research_depth := f.researchDepth
    llm_provider := f.llmProvider
    analysts := buildAnalysts f
    analysis_date := f.analysisDate
    include_risk_assessment := f.includeRisk }

/-- What a form submission does before any network reply arrives: either it
is blocked locally, or it issues exactly one request with a payload. -/
inductive SubmitAction where
  | blocked : SubmitAction
  | request (p : CreateAnalysisPayload) : SubmitAction
deriving DecidableEq

/-- Model of the submission pipeline of `frontend/src/App.tsx`: the symbol
input carries the required attribute, so the browser blocks form submission
exactly when the field is the empty string; once `handleSubmit` runs it
performs no validation of its own and always calls `createAnalysis` with the
payload built from the form. -/
def submitForm (f : FormState) : SubmitAction :=
  if f.symbol = "" then .blocked else .request (payloadOfForm f)

/-- Default form state of the submission view, with the date field left
abstract as in the source (it is computed from the current day). -/
def defaultForm (today : String) : FormState :=
  { symbol := "", market := "美股", researchDepth := 1, llmProvider := "google",
    includeRisk := true, includeSentiment := true, includeNews := true,
    analysisDate := today }

/-- Backend job status values of the status endpoint. -/
inductive JobStatus where
  | queued : JobStatus
  | running : JobStatus
  | completed : JobStatus
  | failed : JobStatus
deriving DecidableEq

/-- Status response consumed by the polling loop; only the fields the loop
reads are modelled. -/
structure StatusResponse where
  status : JobStatus
  error : Option String
deriving DecidableEq

/-- Current-job slot of the session: the four pieces of component state the
polling loop may write (`analysisStatus`, `analysisResult`, `error`,
`isSubmitting`), the fetched result abstracted to its raw text. -/
structure JobSlot where
  analysisStatus : Option StatusResponse
  analysisResult : Option String
  error : Option String
  isSubmitting : Bool
deriving DecidableEq

/-- JavaScript or-else on an optional string: a missing or empty string
falls back to the default, as the logical-or of the source does. -/
def jsOrString (o : Option String) (d : String) : String :=
  match o with
  | some e => if e = "" then d else e
  | none => d

/-- Slot update performed synchronously when a status response arrives and
the subscription is not cancelled: the status is stored, and a failed status
additionally surfaces the backend error (with the generic fallback) and ends
the in-progress state. -/
def applyStatus (sl : JobSlot) (r : StatusResponse) : JobSlot :=
  match r.status with
  | .failed =>
    { sl with
      analysisStatus := some r
      error := some (jsOrString r.error "分析失败")
      isSubmitting := false }
  | _ => { sl with analysisStatus := some r }

/-- Deferred call the loop may have outstanding: a scheduled or in-flight
status check, or the in-flight result fetch triggered by completion. -/
inductive PendingCall where
  | statusCheck : PendingCall
  | resultFetch : PendingCall
deriving DecidableEq

/-- Follow-up call after a status response: completion triggers the result
fetch, failure ends the chain, and any other status schedules the next
check. -/
def nextPending (st : JobStatus) : Option PendingCall :=
  match st with
  | .completed => some .resultFetch
  | .failed => none
  | _ => some .statusCheck

/-- State of one polling subscription: the capture-time cancellation flag,
the at-most-one outstanding deferred call, and the current-job slot. -/
structure PollerState where
  cancelled : Bool
  pending : Option PendingCall
  slot : JobSlot
deriving DecidableEq

/-- State of a fresh subscription: `handleSubmit` has cleared the slot and
set the in-progress flag, and the effect has issued the first check. -/
def initialPoller : PollerState :=
  { cancelled := false, pending := some .statusCheck,
    slot := { analysisStatus := none, analysisResult := none, error := none,
              isSubmitting := true } }

/-- Small-step semantics of the polling loop of `frontend/src/App.tsx`.
Each step is one of: the effect cleanup setting the cancellation flag; a
deferred call resolving after cancellation (its handler returns without
touching the slot); a status response arriving while live (slot updated,
follow-up call per the status); a status check failing while live; the
result fetch resolving while live; and the result fetch failing while live
(caught by the same handler that reports status-check failures). -/
inductive PStep : PollerState → PollerState → Prop where
  | cancel (s : PollerState) : PStep s { s with cancelled := true }
  | dropResolved (s : PollerState) (p : PendingCall) (hp : s.pending = some p)
      (hc : s.cancelled = true) : PStep s { s with pending := none }
  | statusResolves (s : PollerState) (r : StatusResponse)
      (hp : s.pending = some .statusCheck) (hc : s.cancelled = false) :
      PStep s { cancelled := false, pending := nextPending r.status,
                slot := applyStatus s.slot r }
  | statusFails (s : PollerState) (msg : String)
      (hp : s.pending = some .statusCheck) (hc : s.cancelled = false) :
      PStep s { cancelled := false, pending := none,
                slot := { s.slot with error := some msg, isSubmitting := false } }
  | fetchResolves (s : PollerState) (res : String)
      (hp : s.pending = some .resultFetch) (hc : s.cancelled = false) :
      PStep s { cancelled := false, pending := none,
                slot := { s.slot with
                          analysisResult := some res
                          isSubmitting := false } }
  | fetchFails (s : PollerState) (msg : String)
      (hp : s.pending = some .resultFetch) (hc : s.cancelled = false) :
      PStep s { cancelled := false, pending := none,
                slot := { s.slot with error := some msg, isSubmitting := false } }

/-- Status value last stored in the slot, if any. -/
def statusOf (s : PollerState) : Option JobStatus :=
  s.slot.analysisStatus.map (fun r => r.status)

/-- Phases of the poller state machine named by the specification.  A stored
completed or failed status (or a surfaced error) dominates the cancellation
flag: cancelling a subscription that already reached a terminal status has
no observable effect. -/
inductive PollerPhase where
  | polling : PollerPhase
  | phCompleted : PollerPhase
  | phFailed : PollerPhase
  | phCancelled : PollerPhase
deriving DecidableEq

/-- Phase of a poller state. -/
def phase (s : PollerState) : PollerPhase :=
  if statusOf s = some .completed then .phCompleted
  else if statusOf s = some .failed ∨ s.slot.error.isSome = true then .phFailed
  else if s.cancelled = true then .phCancelled
  else .polling

/-- Structural invariant of reachable poller states: once a completed status
is stored no status check is outstanding (only the result fetch may be), and
once a failed status or an error is stored no call is outstanding unless the
subscription is cancelled. -/
def PollerInv (s : PollerState) : Prop :=
  (statusOf s = some .completed → s.pending ≠ some .statusCheck) ∧
  ((statusOf s = some .failed ∨ s.slot.error.isSome = true) →
    s.pending = none ∨ s.cancelled = true)

/-- Reachability from a fresh subscription. -/
def PollerReach (s : PollerState) : Prop :=
  Relation.ReflTransGen PStep initialPoller s

end StockAgent

namespace StockAgent

example : cleanMarkdown "# # Title" = "# Title" := by decide
example : cleanMarkdown "# Title" = "Title" := by decide
example : cleanMarkdown "  ---" = "---" := by decide
example : cleanMarkdown "**bold** and *it*" = "bold and it" := by decide
example : cleanMarkdown "## A\nx" = "A\nx" := by decide
example : cleanMarkdown "a\n\n\n\nb" = "a\n\nb" := by decide
example : parseReportSections "## A\nx\n## B\ny\n" =
    [{ title := "A", content := "x" }, { title := "B", content := "y" }] := by decide
example : parseReportSections "pre\n## A\nx" = [{ title := "A", content := "x" }] := by decide
example : parseReportSections "## A\n   \n## B\ny" = [{ title := "B", content := "y" }] := by decide

/-- Titles of the sections produced by the line loop: the currently open
section contributes its title first, and every later heading line
contributes its trimmed title, in source order. -/
theorem parseAux_titles :
    ∀ (lines : List (List Char)) (cur : Option (List Char × List Char)),
      (parseAux lines cur).map (fun s => s.title) =
        (cur.elim [] (fun p => [String.mk p.1])) ++ headerTitles lines := by
  intro lines
  induction lines with
  | nil =>
    intro cur
    cases cur with
    | none => simp [parseAux, headerTitles]
    | some p =>
      cases p with
      | mk t c => simp [parseAux, headerTitles, finishSection]
  | cons line rest ih =>
    intro cur
    cases hls : lineHeaderMatch line with
    | some title =>
      cases cur with
      | none =>
        simp [parseAux, hls, headerTitles, List.filterMap_cons, ih]
      | some p =>
        cases p with
        | mk t c =>
          simp [parseAux, hls, headerTitles, List.filterMap_cons, ih, finishSection]
    | none =>
      cases cur with
      | none =>
        simp [parseAux, hls, headerTitles, List.filterMap_cons, ih]
      | some p =>
        cases p with
        | mk t c =>
          simp [parseAux, hls, headerTitles, List.filterMap_cons, ih]

/-- Lines before the first heading line are skipped without effect by the
line loop. -/
theorem parseAux_drop_preamble :
    ∀ (pre rest : List (List Char)), (∀ line ∈ pre, lineHeaderMatch line = none) →
      parseAux (pre ++ rest) none = parseAux rest none := by
  intro pre
  induction pre with
  | nil => intro rest _; rfl
  | cons line tl ih =>
    intro rest hall
    have hline : lineHeaderMatch line = none := hall line (by simp)
    have htl : ∀ l ∈ tl, lineHeaderMatch l = none := fun l hl => hall l (by simp [hl])
    simp only [List.cons_append, parseAux, hline]
    exact ih rest htl

/-- Claim C1 (code bug): `cleanMarkdown` is not idempotent.  On the input
consisting of a sharp sign, a space, another sharp sign, a space and a word,
the single multiline pass removes only the first heading marker (the second
one is not at a line start of the original string), so a second application
strips further: `clean(clean(x)) ≠ clean(x)` at this input, against the
specified idempotence. -/
theorem cleanMarkdown_not_idempotent_eval :
    cleanMarkdown "# # Title" = "# Title" ∧
    cleanMarkdown (cleanMarkdown "# # Title") = "Title" ∧
    cleanMarkdown (cleanMarkdown "# # Title") ≠ cleanMarkdown "# # Title" := by
  refine ⟨by decide, by decide, by decide⟩

/-- Claim C6 (code bug): `cleanMarkdown` can leave a heading marker and a
horizontal-rule run at line start.  The final trim exposes markers that were
not at a line start before it ran: two spaces followed by a rule of three
dashes cleans to that bare rule line, and two spaces followed by a heading
cleans to a line starting with the heading marker. -/
theorem cleanMarkdown_leaves_marker_eval :
    cleanMarkdown "  ---" = "---" ∧ isRuleLine ("---".data) = true ∧
    cleanMarkdown "  # x" = "# x" ∧ headerMatchLen ("# x".data) = some 2 := by
  refine ⟨by decide, by decide, by decide, by decide⟩

/-- Claim C4 (confirmed): the sectioniser maps the two-heading example to
exactly its two sections; for every input text the result equals the result
on the lines from the first heading onward (the preamble is discarded);
every produced section has non-empty cleaned content; and the produced
titles are, in order, a sublist of the heading titles of the source. -/
theorem parseReportSections_spec :
    parseReportSections "## A\nx\n## B\ny\n" =
      [{ title := "A", content := "x" }, { title := "B", content := "y" }] ∧
    (∀ text : String,
      parseReportSections text =
        (parseAux ((splitLines text.data).dropWhile
            (fun line => (lineHeaderMatch line).isNone)) none).filter
          (fun s => 0 < s.content.length)) ∧
    (∀ (text : String) (s : ReportSection),
      s ∈ parseReportSections text → 0 < s.content.length) ∧
    (∀ text : String, ((parseReportSections text).map (fun s => s.title)).Sublist
        (headerTitles (splitLines text.data))) := by
  refine ⟨by decide, ?_, ?_, ?_⟩
  · intro text
    by_cases htext : text = ""
    · subst htext
      decide
    · rw [parseReportSections, if_neg htext]
      have hsplit := List.takeWhile_append_dropWhile
        (p := fun line => (lineHeaderMatch line).isNone) (l := splitLines text.data)
      conv_lhs => rw [← hsplit]
      rw [parseAux_drop_preamble]
      intro line hline
      have := List.mem_takeWhile_imp hline
      simpa [Option.isNone_iff_eq_none] using this
  · intro text s hs
    rw [parseReportSections] at hs
    split at hs
    · simp at hs
    · have := (List.mem_filter.mp hs).2
      simpa using this
  · intro text
    by_cases htext : text = ""
    · subst htext
      simp [parseReportSections]
    · rw [parseReportSections, if_neg htext]
      have hmap := parseAux_titles (splitLines text.data) none
      calc ((parseAux (splitLines text.data) none).filter
              (fun s => 0 < s.content.length)).map (fun s => s.title)
          |>.Sublist ((parseAux (splitLines text.data) none).map (fun s => s.title)) :=
            List.Sublist.map _ (List.filter_sublist _)
        _ = headerTitles (splitLines text.data) := by simpa using hmap

/-- Witness for C4: the non-empty-content conjunct applied to the section
produced from a concrete one-heading text. -/
theorem parseReportSections_spec_witness :
    0 < ({ title := "A", content := "x" } : ReportSection).content.length :=
  parseReportSections_spec.2.2.1 "## A\nx" { title := "A", content := "x" } (by decide)

theorem foldl_min_le_init (l : List ℚ) : ∀ a : ℚ, List.foldl min a l ≤ a := by
  induction l with
  | nil => intro a; simp
  | cons x tl ih =>
    intro a
    calc List.foldl min (min a x) tl ≤ min a x := ih (min a x)
      _ ≤ a := min_le_left a x

theorem init_le_foldl_max (l : List ℚ) : ∀ a : ℚ, a ≤ List.foldl max a l := by
  induction l with
  | nil => intro a; simp
  | cons x tl ih =>
    intro a
    calc a ≤ max a x := le_max_left a x
      _ ≤ List.foldl max (max a x) tl := ih (max a x)

theorem foldl_min_nonneg (l : List ℚ) :
    ∀ a : ℚ, 0 ≤ a → (∀ x ∈ l, 0 ≤ x) → 0 ≤ List.foldl min a l := by
  induction l with
  | nil => intro a ha _; simpa using ha
  | cons x tl ih =>
    intro a ha hall
    have hx : 0 ≤ x := hall x (by simp)
    exact ih (min a x) (le_min ha hx) (fun y hy => hall y (by simp [hy]))

/-- Counterexample for claim C2: on the single chart point of price minus
one, the computed lower bound is zero (the floor), which is not below the
minimum price, so the claimed bound `yMin ≤ min(prices)` fails for a
sequence containing a negative price. -/
theorem priceDomain_counterexample :
    ¬ ((priceDomain [{ date := "2024-01-01", price := -1, volume := none }]).1 ≤
        listMin (([{ date := "2024-01-01", price := -1, volume := none }] :
            List ChartDataPoint).map (fun d => d.price))) := by
  norm_num [priceDomain, listMin]

/-- Claim C2 as amended: for every non-empty sequence of chart points whose
prices are all non-negative, the computed domain satisfies
`yMin ≤ min ≤ max ≤ yMax` and `0 ≤ yMin`. -/
theorem priceDomain_bounds (data : List ChartDataPoint)
    (hne : data ≠ []) (hpos : ∀ d ∈ data, 0 ≤ d.price) :
    (priceDomain data).1 ≤ listMin (data.map (fun d => d.price)) ∧
    listMin (data.map (fun d => d.price)) ≤ listMax (data.map (fun d => d.price)) ∧
    listMax (data.map (fun d => d.price)) ≤ (priceDomain data).2 ∧
    0 ≤ (priceDomain data).1 := by
  obtain ⟨d0, tl, rfl⟩ := List.exists_cons_of_ne_nil hne
  set prices := (d0 :: tl).map (fun d => d.price) with hprices
  have hmin_le_max : listMin prices ≤ listMax prices := by
    calc listMin prices ≤ d0.price := foldl_min_le_init _ _
      _ ≤ listMax prices := init_le_foldl_max _ _
  have hmin_nonneg : 0 ≤ listMin prices := by
    refine foldl_min_nonneg _ _ (hpos d0 (by simp)) ?_
    intro x hx
    simp only [hprices, List.map_cons, List.mem_map] at hx
    obtain ⟨d, hd, rfl⟩ := hx
    exact hpos d (by simp [hd])
  have hpad : 0 ≤ max ((listMax prices - listMin prices) * (1 / 10))
      (listMin prices * (1 / 20)) := by
    have : (0 : ℚ) ≤ listMin prices * (1 / 20) := by positivity
    exact le_trans this (le_max_right _ _)
  refine ⟨?_, hmin_le_max, ?_, ?_⟩
  · simp only [priceDomain]
    refine max_le hmin_nonneg ?_
    linarith
  · simp only [priceDomain]
    linarith
  · simp only [priceDomain]
    exact le_max_left 0 _

/-- Counterexample for claim C3: the form whose symbol is a single space has
an empty trimmed symbol, yet submission is not blocked — the required
attribute only rejects the empty string, and `handleSubmit` performs no
validation — so a network request carrying the payload is issued and no
local validation error is signalled. -/
theorem submitForm_counterexample :
    jsTrimStr " " = "" ∧
    submitForm { defaultForm "2026-10-11" with symbol := " " } =
      .request (payloadOfForm { defaultForm "2026-10-11" with symbol := " " }) ∧
    submitForm { defaultForm "2026-10-11" with symbol := " " } ≠ .blocked := by
  refine ⟨by decide, by decide, by decide⟩

/-- Claim C3 as amended: for every form whose symbol is the empty string
(without trimming), submission is blocked locally by the required-field
check and no network request is issued. -/
theorem submitForm_blocked_of_empty (f : FormState) (h : f.symbol = "") :
    submitForm f = .blocked := by
  simp [submitForm, h]

/-- Witness for C3 as amended: the default form (empty symbol) is blocked. -/
theorem submitForm_blocked_of_empty_witness :
    submitForm (defaultForm "2026-10-11") = .blocked :=
  submitForm_blocked_of_empty (defaultForm "2026-10-11") rfl

/-- Claim C7 (confirmed): the conversion run on a provider body whose status
flag is not ok, or whose close array is absent or empty, returns the empty
list of points — a value, not an exception. -/
theorem convertCandle_no_data (d : FinnhubCandle) :
    (d.s ≠ "ok" → convertCandle d = some []) ∧
    (d.c = none → convertCandle d = some []) ∧
    (d.c = some [] → convertCandle d = some []) := by
  refine ⟨?_, ?_, ?_⟩
  · intro hs
    cases hc : d.c with
    | none => simp [convertCandle, hc]
    | some cs => simp [convertCandle, hc, hs]
  · intro hc
    simp [convertCandle, hc]
  · intro hc
    simp only [convertCandle, hc]
    split <;> simp


/-- Witness for C7: the no-data response converts to the empty list. -/
theorem convertCandle_no_data_witness :
    convertCandle noDataCandle = some [] :=
  (convertCandle_no_data noDataCandle).1 (by decide)

/-- Claim C9 (confirmed): a rejected submission yields the submission error
whose message carries the backend error string when the body has one and the
generic fallback otherwise (also on a body that fails to parse), and a
failing network call yields an error of the same kind. -/
theorem createAnalysis_error_paths :
    (∀ resp : SubmitHttpResponse, responseOk resp.status = false →
      createAnalysis (.response resp) =
        .error ("Analysis request failed: " ++ extractErrMsg resp.errorBody)) ∧
    (∀ msg : String, extractErrMsg (.errorField msg) = msg) ∧
    extractErrMsg .parseFailure = "unknown error" ∧
    extractErrMsg .noErrorField = "unknown error" ∧
    (∀ msg : String, createAnalysis (.netFailure msg) = .error msg) := by
  refine ⟨?_, fun msg => rfl, rfl, rfl, fun msg => rfl⟩
  intro resp h
  simp [createAnalysis, h]

/-- Witness for C9: a concrete rejected response with a backend message. -/
theorem createAnalysis_error_paths_witness :
    createAnalysis (.response { status := 500
                                errorBody := .errorField "boom"
                                okBody := .error "unused" }) =
      .error ("Analysis request failed: " ++ extractErrMsg (.errorField "boom")) :=
  createAnalysis_error_paths.1
    { status := 500, errorBody := .errorField "boom", okBody := .error "unused" }
    (by decide)

/-- Claim C10 (confirmed): `fetchStockData` is total at its interface — a
rejected fetch, a non-ok status, an unparseable body, and an exception
escaping the conversion loop all yield the empty list, the same value the
provider's no-data response yields, so the caller cannot distinguish a
transport failure from a legitimately empty series. -/
theorem fetchStockData_total :
    fetchStockData .netFailure = [] ∧
    (∀ (st : Nat) (b : Option FinnhubCandle), responseOk st = false →
      fetchStockData (.response st b) = []) ∧
    (∀ st : Nat, fetchStockData (.response st none) = []) ∧
    (∀ (st : Nat) (d : FinnhubCandle), convertCandle d = none →
      fetchStockData (.response st (some d)) = []) ∧
    fetchStockData .netFailure = fetchStockData (.response 200 (some noDataCandle)) := by
  refine ⟨rfl, ?_, ?_, ?_, by decide⟩
  · intro st b h
    simp [fetchStockData, h]
  · intro st
    simp only [fetchStockData]
    split <;> rfl
  · intro st d h
    simp only [fetchStockData, h]
    split <;> simp

/-- Witness for C10: a concrete rejected status yields the empty list. -/
theorem fetchStockData_total_witness :
    fetchStockData (.response 404 (some noDataCandle)) = [] :=
  fetchStockData_total.2.1 404 (some noDataCandle) (by decide)

/-- Claim C8 (confirmed): on an ok status with non-empty parallel arrays the
conversion yields one point per close entry, index-aligned, with price the
close value, volume the volume value, and date the ISO rendering of the
timestamp; and the rendered date depends only on the timestamp truncated to
day granularity. -/
theorem convertCandle_parallel :
    (∀ (d : FinnhubCandle) (cs : List ℚ) (ts : List Nat) (vs : List ℚ),
      d.s = "ok" → d.c = some cs → d.t = some ts → d.v = some vs → cs ≠ [] →
      ts.length = cs.length → vs.length = cs.length →
      ((convertCandle d).getD []).length = cs.length ∧
      (∀ i : Nat, i < cs.length →
        ((convertCandle d).getD [])[i]? =
          some { date := toISODate (ts.getD i 0), price := cs.getD i 0,
                 volume := some (vs.getD i 0) })) ∧
    (∀ tsec : Nat, toISODate tsec = toISODate (86400 * (tsec / 86400))) := by
  constructor
  · intro d cs ts vs hs hc ht hv hne hts hvs
    have hlen : ¬ ts.length < cs.length := by omega
    simp only [convertCandle, hc, ht, hv, hs, ne_eq, not_true_eq_false, if_false,
      hne, hlen, Option.getD_some]
    constructor
    · simp
    · intro i hi
      simp only [List.getElem?_map, List.getElem?_range, hi, Option.map_some]
      have hiv : i < vs.length := by omega
      simp [hiv]
  · intro tsec
    have key : ∀ s : Nat, s * 1000 / 86400000 = s / 86400 := by
      intro s
      have h : (86400000 : Nat) = 86400 * 1000 := by norm_num
      rw [h, Nat.mul_div_mul_right]
      norm_num
    simp only [toISODate]
    rw [key tsec, key (86400 * (tsec / 86400)),
      Nat.mul_div_cancel_left _ (by norm_num : 0 < 86400)]

/-- Witness for C8: a one-candle ok response with a timestamp one second
before a day boundary converts to the single point dated on that day. -/
theorem convertCandle_parallel_witness :
    ((convertCandle { c := some [10]
                      h := some []
                      l := some []
                      o := some []
                      t := some [86399]
                      v := some [5]
                      s := "ok" }).getD []).length = [(10 : ℚ)].length :=
  (convertCandle_parallel.1
    { c := some [10], h := some [], l := some [], o := some [],
      t := some [86399], v := some [5], s := "ok" }
    [10] [86399] [5] rfl rfl rfl rfl (by decide) rfl rfl).1

theorem pollerInv_step {s s' : PollerState} (hinv : PollerInv s) (h : PStep s s') :
    PollerInv s' := by
  cases h with
  | cancel =>
    exact ⟨fun hcomp => hinv.1 hcomp, fun _ => Or.inr rfl⟩
  | dropResolved p hp hc =>
    exact ⟨fun _ => by simp, fun _ => Or.inl rfl⟩
  | statusResolves r hp hc =>
    have herr : s.slot.error.isSome = false := by
      cases hcase : s.slot.error.isSome with
      | false => rfl
      | true =>
        rcases hinv.2 (Or.inr hcase) with h1 | h2
        · rw [hp] at h1
          exact Option.noConfusion h1
        · rw [hc] at h2
          exact Bool.noConfusion h2
    cases hr : r.status with
    | completed =>
      constructor
      · intro _
        simp [nextPending, hr]
      · intro habs
        rcases habs with h1 | h2
        · simp [statusOf, applyStatus, hr] at h1
        · simp [applyStatus, hr, herr] at h2
    | failed =>
      constructor
      · intro h1
        simp [statusOf, applyStatus, hr] at h1
      · intro _
        left
        simp [nextPending, hr]
    | queued =>
      constructor
      · intro h1
        simp [statusOf, applyStatus, hr] at h1
      · intro habs
        rcases habs with h1 | h2
        · simp [statusOf, applyStatus, hr] at h1
        · simp [applyStatus, hr, herr] at h2
    | running =>
      constructor
      · intro h1
        simp [statusOf, applyStatus, hr] at h1
      · intro habs
        rcases habs with h1 | h2
        · simp [statusOf, applyStatus, hr] at h1
        · simp [applyStatus, hr, herr] at h2
  | statusFails msg hp hc =>
    exact ⟨fun _ => by simp, fun _ => Or.inl rfl⟩
  | fetchResolves res hp hc =>
    exact ⟨fun _ => by simp, fun _ => Or.inl rfl⟩
  | fetchFails msg hp hc =>
    exact ⟨fun _ => by simp, fun _ => Or.inl rfl⟩

theorem pollerInv_of_reach {s : PollerState} (h : PollerReach s) : PollerInv s := by
  unfold PollerReach at h
  induction h with
  | refl =>
    exact ⟨by simp [statusOf, initialPoller], by simp [statusOf, initialPoller]⟩
  | tail hab hbc ih =>
    exact pollerInv_step ih hbc

theorem terminal_phase_cases (s : PollerState) (hterm : phase s ≠ .polling) :
    statusOf s = some .completed ∨
    (statusOf s = some .failed ∨ s.slot.error.isSome = true) ∨
    s.cancelled = true := by
  by_contra hall
  push_neg at hall
  apply hterm
  unfold phase
  rw [if_neg hall.1, if_neg (by tauto), if_neg (by simpa using hall.2.2)]

/-- Claim C5 (confirmed): along every run of the polling loop, once a
reachable state is in a terminal phase (completed, failed or cancelled), no
step changes the phase; and any step taken from a cancelled state leaves
the current-job slot untouched — in particular a status check resolving
after cancellation mutates nothing. -/
theorem poller_terminal_monotonic :
    (∀ s s' : PollerState, PollerReach s → phase s ≠ .polling → PStep s s' →
      phase s' = phase s) ∧
    (∀ s s' : PollerState, s.cancelled = true → PStep s s' → s'.slot = s.slot) := by
  constructor
  · intro s s' hr hterm hstep
    have hinv := pollerInv_of_reach hr
    cases hstep with
    | cancel =>
      unfold phase statusOf
      dsimp only
      by_cases h1 : s.slot.analysisStatus.map (fun r => r.status) = some JobStatus.completed
      · rw [if_pos h1, if_pos h1]
      · rw [if_neg h1, if_neg h1]
        by_cases h2 : s.slot.analysisStatus.map (fun r => r.status) = some JobStatus.failed ∨
            s.slot.error.isSome = true
        · rw [if_pos h2, if_pos h2]
        · rw [if_neg h2, if_neg h2]
          have hcanc : s.cancelled = true := by
            by_contra hfc
            apply hterm
            unfold phase statusOf
            rw [if_neg h1, if_neg h2, if_neg (by simpa using hfc)]
          rw [if_pos rfl, if_pos hcanc]
    | dropResolved p hp hc => rfl
    | statusResolves r hp hc =>
      exfalso
      rcases terminal_phase_cases s hterm with h1 | h2 | h3
      · exact hinv.1 h1 hp
      · rcases hinv.2 h2 with hn | hca
        · rw [hp] at hn
          exact Option.noConfusion hn
        · rw [hc] at hca
          exact Bool.noConfusion hca
      · rw [hc] at h3
        exact Bool.noConfusion h3
    | statusFails msg hp hc =>
      exfalso
      rcases terminal_phase_cases s hterm with h1 | h2 | h3
      · exact hinv.1 h1 hp
      · rcases hinv.2 h2 with hn | hca
        · rw [hp] at hn
          exact Option.noConfusion hn
        · rw [hc] at hca
          exact Bool.noConfusion hca
      · rw [hc] at h3
        exact Bool.noConfusion h3
    | fetchResolves res hp hc =>
      rcases terminal_phase_cases s hterm with h1 | h2 | h3
      · unfold phase statusOf
        dsimp only
        rw [if_pos (by simpa [statusOf] using h1), if_pos (by simpa [statusOf] using h1)]
      · exfalso
        rcases hinv.2 h2 with hn | hca
        · rw [hp] at hn
          exact Option.noConfusion hn
        · rw [hc] at hca
          exact Bool.noConfusion hca
      · exfalso
        rw [hc] at h3
        exact Bool.noConfusion h3
    | fetchFails msg hp hc =>
      rcases terminal_phase_cases s hterm with h1 | h2 | h3
      · unfold phase statusOf
        dsimp only
        rw [if_pos (by simpa [statusOf] using h1), if_pos (by simpa [statusOf] using h1)]
      · exfalso
        rcases hinv.2 h2 with hn | hca
        · rw [hp] at hn
          exact Option.noConfusion hn
        · rw [hc] at hca
          exact Bool.noConfusion hca
      · exfalso
        rw [hc] at h3
        exact Bool.noConfusion h3
  · intro s s' hcanc hstep
    cases hstep with
    | cancel => rfl
    | dropResolved p hp hc => rfl
    | statusResolves r hp hc =>
      rw [hcanc] at hc
      exact Bool.noConfusion hc
    | statusFails msg hp hc =>
      rw [hcanc] at hc
      exact Bool.noConfusion hc
    | fetchResolves res hp hc =>
      rw [hcanc] at hc
      exact Bool.noConfusion hc
    | fetchFails msg hp hc =>
      rw [hcanc] at hc
      exact Bool.noConfusion hc

/-- Witness for C5: from the freshly cancelled subscription (one cancel step
from the initial state), the late resolution of the outstanding status check
changes neither the phase nor the slot. -/
theorem poller_terminal_monotonic_witness :
    phase { cancelled := true, pending := none, slot := initialPoller.slot } =
      phase { cancelled := true, pending := some .statusCheck,
              slot := initialPoller.slot } ∧
    PollerState.slot { cancelled := true, pending := none,
                       slot := initialPoller.slot } =
      PollerState.slot { cancelled := true, pending := some .statusCheck,
                         slot := initialPoller.slot } :=
  ⟨poller_terminal_monotonic.1
      { cancelled := true, pending := some .statusCheck, slot := initialPoller.slot }
      { cancelled := true, pending := none, slot := initialPoller.slot }
      (Relation.ReflTransGen.single (PStep.cancel initialPoller))
      (by decide)
      (PStep.dropResolved _ .statusCheck rfl rfl),
    poller_terminal_monotonic.2
      { cancelled := true, pending := some .statusCheck, slot := initialPoller.slot }
      { cancelled := true, pending := none, slot := initialPoller.slot }
      rfl
      (PStep.dropResolved _ .statusCheck rfl rfl)⟩

/-- Witness for C2 as amended: the bounds evaluated on a concrete two-point
series. -/
theorem priceDomain_bounds_witness :
    (priceDomain [{ date := "2024-01-01", price := 10, volume := none },
                  { date := "2024-01-02", price := 20, volume := none }]).1 ≤
      listMin (([{ date := "2024-01-01", price := 10, volume := none },
                 { date := "2024-01-02", price := 20, volume := none }] :
          List ChartDataPoint).map (fun d => d.price)) :=
  (priceDomain_bounds _ (by decide) (by decide)).1

end StockAgent
